import Mathlib

/-!
Verification of the Black-Scholes pricing engine
(`black_scholes_functions.py`) against its natural-language specification.

The five market inputs (spot `S`, strike `K`, maturity `T` in years,
risk-free rate `r`, volatility `sigma`) are modelled as real numbers; the
SciPy standard normal distribution functions `norm.pdf` / `norm.cdf` are
modelled by their mathematical definitions over `ℝ`.  Python functions that
can fall through without a `return` (the Greek functions discriminated on
the string `option_type`) are modelled as `Option ℝ`, with `none` standing
for Python's implicit `None` result; all the other engine functions are
total and are modelled as plain real-valued functions, which is faithful to
the source: it contains no `raise` statement and no input validation.
-/

open MeasureTheory Set

noncomputable section

namespace BlackScholes

/-- `scipy.stats.norm.pdf`: the density of the standard normal
distribution, `exp (-x²/2) / √(2π)`. -/
def norm_pdf (x : ℝ) : ℝ := Real.exp (-(x ^ 2) / 2) / Real.sqrt (2 * Real.pi)

/-- `scipy.stats.norm.cdf`: the cumulative distribution function of the
standard normal distribution, `∫_{-∞}^{x} norm_pdf`. -/
def norm_cdf (x : ℝ) : ℝ := ∫ t in Iic x, norm_pdf t

/-- `calculate_d1_d2(S, K, T, r, sigma)` from
`black_scholes_functions.py`: returns the pair `(d1, d2)` with
`d1 = (log(S/K) + (r + 0.5·sigma²)·T) / (sigma·√T)` and
`d2 = d1 - sigma·√T`. -/
def calculate_d1_d2 (S K T r sigma : ℝ) : ℝ × ℝ :=
  let d1 := (Real.log (S / K) + (r + 0.5 * sigma ^ 2) * T) / (sigma * Real.sqrt T)
  let d2 := d1 - sigma * Real.sqrt T
  (d1, d2)

/-- `black_scholes_call(S, K, T, r, sigma)`:
`S * norm.cdf(d1) - K * exp(-r*T) * norm.cdf(d2)`. -/
def black_scholes_call (S K T r sigma : ℝ) : ℝ :=
  let d := calculate_d1_d2 S K T r sigma
  S * norm_cdf d.1 - K * Real.exp (-r * T) * norm_cdf d.2

/-- `black_scholes_put(S, K, T, r, sigma)`:
`K * exp(-r*T) * norm.cdf(-d2) - S * norm.cdf(-d1)`. -/
def black_scholes_put (S K T r sigma : ℝ) : ℝ :=
  let d := calculate_d1_d2 S K T r sigma
  K * Real.exp (-r * T) * norm_cdf (-d.2) - S * norm_cdf (-d.1)

/-- `delta(S, K, T, r, sigma, option_type)`: `norm.cdf(d1)` for a call,
`norm.cdf(d1) - 1` for a put.  The Python `if/elif` chain has no `else`
branch, so for any other `option_type` the function returns `None`,
modelled as `none`. -/
def delta (S K T r sigma : ℝ) (option_type : String) : Option ℝ :=
  let d1 := (calculate_d1_d2 S K T r sigma).1
  if option_type == "call" then some (norm_cdf d1)
  else if option_type == "put" then some (norm_cdf d1 - 1)
  else none

/-- `gamma(S, K, T, r, sigma)`: `norm.pdf(d1) / (S * sigma * sqrt(T))`.
Takes no `option_type` parameter in the source. -/
def gamma (S K T r sigma : ℝ) : ℝ :=
  let d1 := (calculate_d1_d2 S K T r sigma).1
  norm_pdf d1 / (S * sigma * Real.sqrt T)

/-- `theta(S, K, T, r, sigma, option_type)`: the shared first term is
`-S * norm.pdf(d1) * sigma / (2 * sqrt(T))`; the call branch subtracts
`r * K * exp(-r*T) * norm.cdf(d2)`, the put branch adds
`r * K * exp(-r*T) * norm.cdf(-d2)`; any other `option_type` falls
through to Python's `None`. -/
def theta (S K T r sigma : ℝ) (option_type : String) : Option ℝ :=
  let d := calculate_d1_d2 S K T r sigma
  let first_term := -S * norm_pdf d.1 * sigma / (2 * Real.sqrt T)
  if option_type == "call" then
    some (first_term - r * K * Real.exp (-r * T) * norm_cdf d.2)
  else if option_type == "put" then
    some (first_term + r * K * Real.exp (-r * T) * norm_cdf (-d.2))
  else none

/-- `vega(S, K, T, r, sigma)`: `S * norm.pdf(d1) * sqrt(T)`.
Takes no `option_type` parameter in the source. -/
def vega (S K T r sigma : ℝ) : ℝ :=
  let d1 := (calculate_d1_d2 S K T r sigma).1
  S * norm_pdf d1 * Real.sqrt T

/-- `rho(S, K, T, r, sigma, option_type)`:
`K * T * exp(-r*T) * norm.cdf(d2)` for a call,
`-K * T * exp(-r*T) * norm.cdf(-d2)` for a put; any other
`option_type` falls through to Python's `None`. -/
def rho (S K T r sigma : ℝ) (option_type : String) : Option ℝ :=
  let d2 := (calculate_d1_d2 S K T r sigma).2
  if option_type == "call" then some (K * T * Real.exp (-r * T) * norm_cdf d2)
  else if option_type == "put" then some (-K * T * Real.exp (-r * T) * norm_cdf (-d2))
  else none

/-- The declared default value of the `option_type` parameter of `delta`,
`theta` and `rho` in the source: the string `'call'`. -/
def default_option_type : String := "call"

/-- Invoking `delta(S, K, T, r, sigma)` with the `option_type` argument
omitted: Python substitutes the declared default `'call'`. -/
def delta_default (S K T r sigma : ℝ) : Option ℝ :=
  delta S K T r sigma default_option_type

/-- Invoking `theta(S, K, T, r, sigma)` with the `option_type` argument
omitted: Python substitutes the declared default `'call'`. -/
def theta_default (S K T r sigma : ℝ) : Option ℝ :=
  theta S K T r sigma default_option_type

/-- Invoking `rho(S, K, T, r, sigma)` with the `option_type` argument
omitted: Python substitutes the declared default `'call'`. -/
def rho_default (S K T r sigma : ℝ) : Option ℝ :=
  rho S K T r sigma default_option_type

/-! ### Basic facts about the standard normal density and CDF -/

lemma norm_pdf_pos (x : ℝ) : 0 < norm_pdf x := by
  unfold norm_pdf
  have h2 : 0 < Real.sqrt (2 * Real.pi) :=
    Real.sqrt_pos.mpr (by positivity)
  exact div_pos (Real.exp_pos _) h2

lemma norm_pdf_even (x : ℝ) : norm_pdf (-x) = norm_pdf x := by
  unfold norm_pdf
  ring_nf

lemma continuous_norm_pdf : Continuous norm_pdf := by
  unfold norm_pdf
  exact (Real.continuous_exp.comp (by continuity)).div_const _

lemma norm_pdf_eq (x : ℝ) :
    norm_pdf x = Real.exp (-(1 / 2 : ℝ) * x ^ 2) / Real.sqrt (2 * Real.pi) := by
  unfold norm_pdf
  ring_nf

lemma integrable_norm_pdf : Integrable norm_pdf := by
  have h : Integrable (fun x : ℝ => Real.exp (-(1 / 2 : ℝ) * x ^ 2)) :=
    integrable_exp_neg_mul_sq (by norm_num)
  have e : norm_pdf = fun x =>
      Real.exp (-(1 / 2 : ℝ) * x ^ 2) / Real.sqrt (2 * Real.pi) :=
    funext norm_pdf_eq
  rw [e]
  exact h.div_const _

lemma integral_norm_pdf : ∫ x, norm_pdf x = 1 := by
  have h : (∫ x : ℝ, Real.exp (-(1 / 2 : ℝ) * x ^ 2)) = Real.sqrt (2 * Real.pi) := by
    rw [integral_gaussian (1 / 2 : ℝ)]
    congr 1
    ring
  have e : norm_pdf = fun x =>
      Real.exp (-(1 / 2 : ℝ) * x ^ 2) / Real.sqrt (2 * Real.pi) :=
    funext norm_pdf_eq
  have hpos : 0 < Real.sqrt (2 * Real.pi) := Real.sqrt_pos.mpr (by positivity)
  rw [e, integral_div, h, div_self hpos.ne.symm]

lemma norm_cdf_nonneg (x : ℝ) : 0 ≤ norm_cdf x :=
  setIntegral_nonneg measurableSet_Iic fun t _ => (norm_pdf_pos t).le

lemma norm_cdf_le_one (x : ℝ) : norm_cdf x ≤ 1 := by
  rw [← integral_norm_pdf]
  exact setIntegral_le_integral integrable_norm_pdf
    (Filter.Eventually.of_forall fun t => (norm_pdf_pos t).le)

lemma norm_cdf_add_norm_cdf_neg (x : ℝ) : norm_cdf x + norm_cdf (-x) = 1 := by
  have h1 : (∫ t in Iic (-x), norm_pdf t) = ∫ t in Ioi x, norm_pdf t := by
    rw [← integral_comp_neg_Ioi]
    refine (setIntegral_congr_fun measurableSet_Ioi fun t _ => ?_).symm
    exact (norm_pdf_even t).symm
  have h2 : (∫ t in Iic x, norm_pdf t) + ∫ t in Ioi x, norm_pdf t = 1 := by
    rw [intervalIntegral.integral_Iic_add_Ioi integrable_norm_pdf.integrableOn
      integrable_norm_pdf.integrableOn, integral_norm_pdf]
  unfold norm_cdf
  rw [h1]
  exact h2

lemma norm_cdf_neg (x : ℝ) : norm_cdf (-x) = 1 - norm_cdf x := by
  have h := norm_cdf_add_norm_cdf_neg x
  linarith

lemma norm_cdf_zero : norm_cdf 0 = 1 / 2 := by
  have h := norm_cdf_add_norm_cdf_neg 0
  rw [neg_zero] at h
  linarith

lemma measurableEmbedding_add_right (s : ℝ) :
    MeasurableEmbedding fun t : ℝ => t + s :=
  (Homeomorph.addRight s).isClosedEmbedding.measurableEmbedding

lemma integrable_norm_pdf_shift (s : ℝ) :
    Integrable fun t : ℝ => norm_pdf (t + s) := by
  have A := measurableEmbedding_add_right s
  have h : Integrable norm_pdf (Measure.map (fun t : ℝ => t + s) volume) := by
    rw [map_add_right_eq_self volume s]
    exact integrable_norm_pdf
  exact A.integrable_map_iff.mp h

lemma integral_norm_pdf_shift (c s : ℝ) :
    (∫ t in Iic c, norm_pdf (t + s)) = ∫ t in Iic (c + s), norm_pdf t := by
  have A := measurableEmbedding_add_right s
  have B := A.setIntegral_map (μ := volume) norm_pdf (Iic (c + s))
  rw [map_add_right_eq_self volume s] at B
  have hpre : Set.preimage (fun t : ℝ => t + s) (Iic (c + s)) = Iic c := by
    rw [preimage_add_const_Iic, add_sub_cancel_right]
  rw [hpre] at B
  exact B.symm

lemma norm_cdf_eq_add_intervalIntegral (x : ℝ) :
    norm_cdf x = norm_cdf 0 + ∫ t in (0 : ℝ)..x, norm_pdf t := by
  have h := intervalIntegral.integral_Iic_sub_Iic (μ := volume)
    (integrable_norm_pdf.integrableOn : IntegrableOn norm_pdf (Iic 0) volume)
    (integrable_norm_pdf.integrableOn : IntegrableOn norm_pdf (Iic x) volume)
  unfold norm_cdf
  linarith [h]

lemma hasDerivAt_norm_cdf (x : ℝ) : HasDerivAt norm_cdf (norm_pdf x) x := by
  have key : HasDerivAt (fun u : ℝ => ∫ t in (0 : ℝ)..u, norm_pdf t) (norm_pdf x) x :=
    intervalIntegral.integral_hasDerivAt_right
      (continuous_norm_pdf.intervalIntegrable 0 x)
      (continuous_norm_pdf.stronglyMeasurableAtFilter _ _)
      continuous_norm_pdf.continuousAt
  have h2 : HasDerivAt (fun u : ℝ => norm_cdf 0 + ∫ t in (0 : ℝ)..u, norm_pdf t)
      (norm_pdf x) x := key.const_add _
  have e : (fun u : ℝ => norm_cdf 0 + ∫ t in (0 : ℝ)..u, norm_pdf t) = norm_cdf :=
    funext fun u => (norm_cdf_eq_add_intervalIntegral u).symm
  rw [← e]
  exact h2

/-! ### Helper lemmas about the engine -/

/-- Put-call parity holds exactly over `ℝ`, for arbitrary real inputs:
it only uses the reflection identity of the normal CDF. -/
lemma put_call_parity (S K T r sigma : ℝ) :
    black_scholes_call S K T r sigma - black_scholes_put S K T r sigma =
      S - K * Real.exp (-r * T) := by
  simp only [black_scholes_call, black_scholes_put]
  have h1 := norm_cdf_add_norm_cdf_neg (calculate_d1_d2 S K T r sigma).1
  have h2 := norm_cdf_add_norm_cdf_neg (calculate_d1_d2 S K T r sigma).2
  linear_combination S * h1 - K * Real.exp (-r * T) * h2

/-- The product `d2 · (sigma·√T)`, simplified: the defining division of
`d1` cancels when `T > 0` and `sigma ≠ 0`. -/
lemma d2_mul_key (S K T r sigma : ℝ) (hT : 0 < T) (hsig : sigma ≠ 0) :
    (calculate_d1_d2 S K T r sigma).2 * (sigma * Real.sqrt T) =
      Real.log (S / K) + r * T - sigma ^ 2 * T / 2 := by
  have hst : Real.sqrt T ^ 2 = T := Real.sq_sqrt hT.le
  have hc0 : Real.sqrt T ≠ 0 := (Real.sqrt_pos.mpr hT).ne.symm
  simp only [calculate_d1_d2]
  field_simp
  linear_combination (-2 * sigma ^ 2 : ℝ) * hst

/-- Pointwise comparison of the two Gaussian bumps appearing in the call
price: below `d2`, the shifted bump weighted by `S` dominates the centred
bump weighted by the discounted strike. -/
lemma call_integrand_nonneg (S K T r sigma : ℝ) (hS : 0 < S) (hK : 0 < K)
    (hT : 0 < T) (hsig : 0 < sigma) {t : ℝ}
    (ht : t ≤ (calculate_d1_d2 S K T r sigma).2) :
    K * Real.exp (-r * T) * norm_pdf t ≤ S * norm_pdf (t + sigma * Real.sqrt T) := by
  have hs : 0 < sigma * Real.sqrt T := mul_pos hsig (Real.sqrt_pos.mpr hT)
  have hkey := d2_mul_key S K T r sigma hT hsig.ne.symm
  have hsq : (sigma * Real.sqrt T) ^ 2 = sigma ^ 2 * T := by
    rw [mul_pow, Real.sq_sqrt hT.le]
  have hc : 0 < Real.sqrt (2 * Real.pi) := Real.sqrt_pos.mpr (by positivity)
  have hL : K * Real.exp (-r * T) * norm_pdf t =
      Real.exp (Real.log K + -r * T + -(t ^ 2) / 2) / Real.sqrt (2 * Real.pi) := by
    rw [norm_pdf, Real.exp_add, Real.exp_add, Real.exp_log hK]
    ring
  have hR : S * norm_pdf (t + sigma * Real.sqrt T) =
      Real.exp (Real.log S + -((t + sigma * Real.sqrt T) ^ 2) / 2) /
        Real.sqrt (2 * Real.pi) := by
    rw [norm_pdf, Real.exp_add, Real.exp_log hS]
    ring
  rw [hL, hR]
  have hlog : Real.log (S / K) = Real.log S - Real.log K :=
    Real.log_div hS.ne.symm hK.ne.symm
  have hexp : Real.log K + -r * T + -(t ^ 2) / 2 ≤
      Real.log S + -((t + sigma * Real.sqrt T) ^ 2) / 2 := by
    nlinarith [mul_le_mul_of_nonneg_left ht hs.le]
  exact div_le_div_of_nonneg_right (Real.exp_le_exp.mpr hexp) hc.le

/-- The call price as a single integral of a (pointwise comparable)
integrand over `Iic d2`. -/
lemma call_eq_integral (S K T r sigma : ℝ) :
    black_scholes_call S K T r sigma =
      ∫ t in Iic (calculate_d1_d2 S K T r sigma).2,
        (S * norm_pdf (t + sigma * Real.sqrt T) -
          K * Real.exp (-r * T) * norm_pdf t) := by
  have hd : (calculate_d1_d2 S K T r sigma).2 + sigma * Real.sqrt T =
      (calculate_d1_d2 S K T r sigma).1 := by
    simp only [calculate_d1_d2]
    ring
  have hshift := integral_norm_pdf_shift (calculate_d1_d2 S K T r sigma).2
    (sigma * Real.sqrt T)
  rw [hd] at hshift
  have hint1 : IntegrableOn
      (fun t => S * norm_pdf (t + sigma * Real.sqrt T))
      (Iic (calculate_d1_d2 S K T r sigma).2) volume :=
    ((integrable_norm_pdf_shift (sigma * Real.sqrt T)).const_mul S).integrableOn
  have hint2 : IntegrableOn
      (fun t => K * Real.exp (-r * T) * norm_pdf t)
      (Iic (calculate_d1_d2 S K T r sigma).2) volume :=
    (integrable_norm_pdf.const_mul (K * Real.exp (-r * T))).integrableOn
  rw [integral_sub hint1 hint2, integral_mul_left, integral_mul_left, hshift]
  simp only [black_scholes_call, norm_cdf]

/-- Non-negativity of the call price for economically valid inputs. -/
lemma call_nonneg (S K T r sigma : ℝ) (hS : 0 < S) (hK : 0 < K)
    (hT : 0 < T) (hsig : 0 < sigma) :
    0 ≤ black_scholes_call S K T r sigma := by
  rw [call_eq_integral]
  refine setIntegral_nonneg measurableSet_Iic fun t ht => ?_
  have h := call_integrand_nonneg S K T r sigma hS hK hT hsig ht
  linarith

/-- The classical Black-Scholes identity
`S · φ(d1) = K · e^(−rT) · φ(d2)`. -/
lemma spdf_identity (S K T r sigma : ℝ) (hS : 0 < S) (hK : 0 < K) (hT : 0 < T)
    (hsig : sigma ≠ 0) :
    S * norm_pdf (calculate_d1_d2 S K T r sigma).1 =
      K * Real.exp (-r * T) * norm_pdf (calculate_d1_d2 S K T r sigma).2 := by
  have hkey := d2_mul_key S K T r sigma hT hsig
  have hd : (calculate_d1_d2 S K T r sigma).1 =
      (calculate_d1_d2 S K T r sigma).2 + sigma * Real.sqrt T := by
    simp only [calculate_d1_d2]
    ring
  have hlog : Real.log (S / K) = Real.log S - Real.log K :=
    Real.log_div hS.ne.symm hK.ne.symm
  set s := sigma * Real.sqrt T with hs_def
  set q := (calculate_d1_d2 S K T r sigma).2 with hq_def
  have hsq : s ^ 2 = sigma ^ 2 * T := by
    rw [hs_def, mul_pow, Real.sq_sqrt hT.le]
  rw [hd]
  unfold norm_pdf
  rw [← mul_div_assoc, ← mul_div_assoc]
  congr 1
  rw [← Real.exp_log hS, ← Real.exp_log hK, ← Real.exp_add, ← Real.exp_add,
    ← Real.exp_add]
  congr 1
  linear_combination (-1 : ℝ) * hlog - hkey - hsq / 2

/-- Vega is strictly positive whenever `S > 0` and `T > 0`. -/
lemma vega_pos (S K T r sigma : ℝ) (hS : 0 < S) (hT : 0 < T) :
    0 < vega S K T r sigma := by
  simp only [vega]
  exact mul_pos (mul_pos hS (norm_pdf_pos _)) (Real.sqrt_pos.mpr hT)

/-- As a function of volatility, the call price is differentiable on
`sigma > 0` with derivative equal to vega. -/
lemma hasDerivAt_call_sigma (S K T r : ℝ) (hS : 0 < S) (hK : 0 < K) (hT : 0 < T)
    {sigma : ℝ} (hsig : 0 < sigma) :
    HasDerivAt (fun v => black_scholes_call S K T r v)
      (vega S K T r sigma) sigma := by
  have hct : 0 < Real.sqrt T := Real.sqrt_pos.mpr hT
  have hm : sigma * Real.sqrt T ≠ 0 := (mul_pos hsig hct).ne.symm
  have hpow : HasDerivAt (fun v : ℝ => v ^ 2) (2 * sigma) sigma := by
    simpa using hasDerivAt_pow 2 sigma
  have hn : HasDerivAt (fun v : ℝ => Real.log (S / K) + (r + 0.5 * v ^ 2) * T)
      ((0.5 * (2 * sigma)) * T) sigma :=
    (((hpow.const_mul 0.5).const_add r).mul_const T).const_add _
  have hmder : HasDerivAt (fun v : ℝ => v * Real.sqrt T) (Real.sqrt T) sigma := by
    simpa using (hasDerivAt_id sigma).mul_const (Real.sqrt T)
  have hd1 : HasDerivAt (fun v => (calculate_d1_d2 S K T r v).1)
      (((0.5 * (2 * sigma)) * T * (sigma * Real.sqrt T) -
        (Real.log (S / K) + (r + 0.5 * sigma ^ 2) * T) * Real.sqrt T) /
          (sigma * Real.sqrt T) ^ 2) sigma := hn.div hmder hm
  have hd2 : HasDerivAt (fun v => (calculate_d1_d2 S K T r v).2)
      (((0.5 * (2 * sigma)) * T * (sigma * Real.sqrt T) -
        (Real.log (S / K) + (r + 0.5 * sigma ^ 2) * T) * Real.sqrt T) /
          (sigma * Real.sqrt T) ^ 2 - Real.sqrt T) sigma := hd1.sub hmder
  have hcdf1 := (hasDerivAt_norm_cdf ((calculate_d1_d2 S K T r sigma).1)).comp sigma hd1
  have hcdf2 := (hasDerivAt_norm_cdf ((calculate_d1_d2 S K T r sigma).2)).comp sigma hd2
  have hcall := (hcdf1.const_mul S).sub
    (hcdf2.const_mul (K * Real.exp (-r * T)))
  have hid := spdf_identity S K T r sigma hS hK hT hsig.ne.symm
  have habs : ∀ D : ℝ,
      S * (norm_pdf (calculate_d1_d2 S K T r sigma).1 * D) -
        K * Real.exp (-r * T) *
          (norm_pdf (calculate_d1_d2 S K T r sigma).2 * (D - Real.sqrt T)) =
      S * norm_pdf (calculate_d1_d2 S K T r sigma).1 * Real.sqrt T := by
    intro D
    linear_combination (D - Real.sqrt T) * hid
  have hD := habs ((0.5 * (2 * sigma) * T * (sigma * Real.sqrt T) -
      (Real.log (S / K) + (r + 0.5 * sigma ^ 2) * T) * Real.sqrt T) /
        (sigma * Real.sqrt T) ^ 2)
  show HasDerivAt (fun v => black_scholes_call S K T r v)
    (S * norm_pdf (calculate_d1_d2 S K T r sigma).1 * Real.sqrt T) sigma
  rw [← hD]
  exact hcall

/-- The call price is strictly increasing in volatility on `sigma > 0`. -/
lemma call_strictMonoOn_sigma (S K T r : ℝ) (hS : 0 < S) (hK : 0 < K)
    (hT : 0 < T) :
    StrictMonoOn (fun v => black_scholes_call S K T r v) (Ioi 0) := by
  apply strictMonoOn_of_deriv_pos (convex_Ioi 0)
  · exact fun v hv =>
      (hasDerivAt_call_sigma S K T r hS hK hT hv).continuousAt.continuousWithinAt
  · intro v hv
    rw [interior_Ioi] at hv
    rw [(hasDerivAt_call_sigma S K T r hS hK hT hv).deriv]
    exact vega_pos S K T r v hS hT

lemma gamma_nonneg (S K T r sigma : ℝ) (hS : 0 < S) (hT : 0 < T)
    (hsig : 0 < sigma) : 0 ≤ gamma S K T r sigma := by
  simp only [gamma]
  exact div_nonneg (norm_pdf_pos _).le
    (mul_nonneg (mul_nonneg hS.le hsig.le) (Real.sqrt_nonneg T))

/-! ### The claims -/

/-- C1: for S,K,T,sigma > 0 and any real r, the call price minus the put
price equals `S − K·e^(−rT)` exactly (hence within any positive tolerance,
in particular 1e-6), and the call price is non-negative. -/
theorem C1_parity_and_call_nonneg (S K T r sigma : ℝ)
    (hS : 0 < S) (hK : 0 < K) (hT : 0 < T) (hsig : 0 < sigma) :
    black_scholes_call S K T r sigma - black_scholes_put S K T r sigma =
      S - K * Real.exp (-r * T) ∧
    |black_scholes_call S K T r sigma - black_scholes_put S K T r sigma -
        (S - K * Real.exp (-r * T))| ≤ 1e-6 ∧
    0 ≤ black_scholes_call S K T r sigma := by
  have h := put_call_parity S K T r sigma
  refine ⟨h, ?_, call_nonneg S K T r sigma hS hK hT hsig⟩
  rw [h, sub_self, abs_zero]
  norm_num

/-- Witness for C1 at S=100, K=100, T=1, r=1/20, sigma=1/5. -/
theorem C1_witness :
    black_scholes_call 100 100 1 (1 / 20) (1 / 5) -
        black_scholes_put 100 100 1 (1 / 20) (1 / 5) =
      100 - 100 * Real.exp (-(1 / 20) * 1) ∧
    |black_scholes_call 100 100 1 (1 / 20) (1 / 5) -
        black_scholes_put 100 100 1 (1 / 20) (1 / 5) -
        (100 - 100 * Real.exp (-(1 / 20) * 1))| ≤ 1e-6 ∧
    0 ≤ black_scholes_call 100 100 1 (1 / 20) (1 / 5) :=
  C1_parity_and_call_nonneg 100 100 1 (1 / 20) (1 / 5)
    (by norm_num) (by norm_num) (by norm_num) (by norm_num)

/-- C2, counterexample: at T = 0 (and likewise sigma = 0) the engine does
not fail with an InvalidInput error: the Python code has no validation and
no `raise` statement, so `delta` (and `theta`) still evaluate the formulas
and return a value (`nan`/`inf` under IEEE floats; a totalized junk value
in the real-number model).  `isSome = true` says the operation returned a
value instead of failing. -/
theorem C2_counterexample :
    (delta 100 100 0 (1 / 20) (1 / 5) "call").isSome = true ∧
    (theta 100 100 1 (1 / 20) 0 "call").isSome = true :=
  ⟨rfl, rfl⟩

/-- C2 (amended): the engine performs no input validation whatsoever: for
every numeric input — valid or not (S,K,T,σ ≤ 0 included) — and a
`call`/`put` discriminator, every type-discriminated operation evaluates
its formula and returns a value; no InvalidInput error exists in the code.
The price functions, `gamma` and `vega` are total real-valued functions by
construction. -/
theorem C2_amended_no_validation (S K T r sigma : ℝ) :
    (delta S K T r sigma "call").isSome = true ∧
    (theta S K T r sigma "call").isSome = true ∧
    (rho S K T r sigma "call").isSome = true ∧
    (delta S K T r sigma "put").isSome = true ∧
    (theta S K T r sigma "put").isSome = true ∧
    (rho S K T r sigma "put").isSome = true :=
  ⟨rfl, rfl, rfl, rfl, rfl, rfl⟩

/-- C3: the call price is `S·Φ(d1) − K·e^(−rT)·Φ(d2)` and the put price is
`K·e^(−rT)·Φ(−d2) − S·Φ(−d1)`, with `(d1,d2)` the derived normalization
variables of `calculate_d1_d2`. -/
theorem C3_price_formulas (S K T r sigma : ℝ)
    (hS : 0 < S) (hK : 0 < K) (hT : 0 < T) (hsig : 0 < sigma) :
    black_scholes_call S K T r sigma =
      S * norm_cdf (calculate_d1_d2 S K T r sigma).1 -
        K * Real.exp (-r * T) * norm_cdf (calculate_d1_d2 S K T r sigma).2 ∧
    black_scholes_put S K T r sigma =
      K * Real.exp (-r * T) * norm_cdf (-(calculate_d1_d2 S K T r sigma).2) -
        S * norm_cdf (-(calculate_d1_d2 S K T r sigma).1) :=
  ⟨rfl, rfl⟩

/-- Witness for C3 at S=100, K=100, T=1, r=1/20, sigma=1/5. -/
theorem C3_witness :
    black_scholes_call 100 100 1 (1 / 20) (1 / 5) =
      100 * norm_cdf (calculate_d1_d2 100 100 1 (1 / 20) (1 / 5)).1 -
        100 * Real.exp (-(1 / 20) * 1) *
          norm_cdf (calculate_d1_d2 100 100 1 (1 / 20) (1 / 5)).2 ∧
    black_scholes_put 100 100 1 (1 / 20) (1 / 5) =
      100 * Real.exp (-(1 / 20) * 1) *
          norm_cdf (-(calculate_d1_d2 100 100 1 (1 / 20) (1 / 5)).2) -
        100 * norm_cdf (-(calculate_d1_d2 100 100 1 (1 / 20) (1 / 5)).1) :=
  C3_price_formulas 100 100 1 (1 / 20) (1 / 5)
    (by norm_num) (by norm_num) (by norm_num) (by norm_num)

/-- C4: `calculate_d1_d2` returns
`d1 = (ln(S/K) + (r + 0.5·σ²)·T) / (σ·√T)` and `d2 = d1 − σ·√T`; in
particular the returned pair satisfies the invariant `d2 = d1 − σ·√T`. -/
theorem C4_d1_d2_formulas (S K T r sigma : ℝ)
    (hS : 0 < S) (hK : 0 < K) (hT : 0 < T) (hsig : 0 < sigma) :
    (calculate_d1_d2 S K T r sigma).1 =
      (Real.log (S / K) + (r + 0.5 * sigma ^ 2) * T) / (sigma * Real.sqrt T) ∧
    (calculate_d1_d2 S K T r sigma).2 =
      (calculate_d1_d2 S K T r sigma).1 - sigma * Real.sqrt T :=
  ⟨rfl, rfl⟩

/-- Witness for C4 at S=100, K=100, T=1, r=1/20, sigma=1/5. -/
theorem C4_witness :
    (calculate_d1_d2 100 100 1 (1 / 20) (1 / 5)).1 =
      (Real.log (100 / 100) + (1 / 20 + 0.5 * (1 / 5) ^ 2) * 1) /
        (1 / 5 * Real.sqrt 1) ∧
    (calculate_d1_d2 100 100 1 (1 / 20) (1 / 5)).2 =
      (calculate_d1_d2 100 100 1 (1 / 20) (1 / 5)).1 - 1 / 5 * Real.sqrt 1 :=
  C4_d1_d2_formulas 100 100 1 (1 / 20) (1 / 5)
    (by norm_num) (by norm_num) (by norm_num) (by norm_num)

/-- C5, counterexample: for a discriminator outside {call, put} the
type-discriminated operations do not fail with an UnsupportedOptionType
error — no such error exists in the code.  The Python `if/elif` chain
falls through and the functions silently return `None` (modelled as
`none`). -/
theorem C5_counterexample :
    delta 100 100 1 (1 / 20) (1 / 5) "straddle" = none ∧
    theta 100 100 1 (1 / 20) (1 / 5) "straddle" = none ∧
    rho 100 100 1 (1 / 20) (1 / 5) "straddle" = none :=
  ⟨rfl, rfl, rfl⟩

/-- C5 (amended): for every discriminator outside {call, put}, `delta`,
`theta` and `rho` return Python's `None` (no numeric value) by falling off
the end of the `if/elif` chain; they raise no UnsupportedOptionType
error. -/
theorem C5_amended_none_on_unknown_type (S K T r sigma : ℝ) (ot : String)
    (h1 : ot ≠ "call") (h2 : ot ≠ "put") :
    delta S K T r sigma ot = none ∧
    theta S K T r sigma ot = none ∧
    rho S K T r sigma ot = none := by
  have b1 : (ot == "call") = false := by rw [beq_eq_false_iff_ne]; exact h1
  have b2 : (ot == "put") = false := by rw [beq_eq_false_iff_ne]; exact h2
  refine ⟨?_, ?_, ?_⟩
  · simp [delta, b1, b2]
  · simp [theta, b1, b2]
  · simp [rho, b1, b2]

/-- Witness for C5 (amended) at the discriminator "forward". -/
theorem C5_witness :
    delta 1 1 1 0 1 "forward" = none ∧
    theta 1 1 1 0 1 "forward" = none ∧
    rho 1 1 1 0 1 "forward" = none :=
  C5_amended_none_on_unknown_type 1 1 1 0 1 "forward" (by decide) (by decide)

/-- C6: delta of a call is `Φ(d1)` and lies in [0,1]; delta of a put is
`Φ(d1) − 1` and lies in [−1,0]. -/
theorem C6_delta_formulas_and_bounds (S K T r sigma : ℝ)
    (hS : 0 < S) (hK : 0 < K) (hT : 0 < T) (hsig : 0 < sigma) :
    delta S K T r sigma "call" =
      some (norm_cdf (calculate_d1_d2 S K T r sigma).1) ∧
    delta S K T r sigma "put" =
      some (norm_cdf (calculate_d1_d2 S K T r sigma).1 - 1) ∧
    0 ≤ norm_cdf (calculate_d1_d2 S K T r sigma).1 ∧
    norm_cdf (calculate_d1_d2 S K T r sigma).1 ≤ 1 ∧
    -1 ≤ norm_cdf (calculate_d1_d2 S K T r sigma).1 - 1 ∧
    norm_cdf (calculate_d1_d2 S K T r sigma).1 - 1 ≤ 0 := by
  have h0 := norm_cdf_nonneg (calculate_d1_d2 S K T r sigma).1
  have h1 := norm_cdf_le_one (calculate_d1_d2 S K T r sigma).1
  exact ⟨rfl, rfl, h0, h1, by linarith, by linarith⟩

/-- Witness for C6 at S=100, K=100, T=1, r=1/20, sigma=1/5. -/
theorem C6_witness :
    delta 100 100 1 (1 / 20) (1 / 5) "call" =
      some (norm_cdf (calculate_d1_d2 100 100 1 (1 / 20) (1 / 5)).1) ∧
    delta 100 100 1 (1 / 20) (1 / 5) "put" =
      some (norm_cdf (calculate_d1_d2 100 100 1 (1 / 20) (1 / 5)).1 - 1) ∧
    0 ≤ norm_cdf (calculate_d1_d2 100 100 1 (1 / 20) (1 / 5)).1 ∧
    norm_cdf (calculate_d1_d2 100 100 1 (1 / 20) (1 / 5)).1 ≤ 1 ∧
    -1 ≤ norm_cdf (calculate_d1_d2 100 100 1 (1 / 20) (1 / 5)).1 - 1 ∧
    norm_cdf (calculate_d1_d2 100 100 1 (1 / 20) (1 / 5)).1 - 1 ≤ 0 :=
  C6_delta_formulas_and_bounds 100 100 1 (1 / 20) (1 / 5)
    (by norm_num) (by norm_num) (by norm_num) (by norm_num)

/-- C7: for fixed S,K,T > 0 and any real r, both the call price and the
put price are strictly increasing in sigma on sigma > 0. -/
theorem C7_strict_mono_in_sigma (S K T r s1 s2 : ℝ)
    (hS : 0 < S) (hK : 0 < K) (hT : 0 < T) (h1 : 0 < s1) (h12 : s1 < s2) :
    black_scholes_call S K T r s1 < black_scholes_call S K T r s2 ∧
    black_scholes_put S K T r s1 < black_scholes_put S K T r s2 := by
  have h2 : 0 < s2 := h1.trans h12
  have hc := call_strictMonoOn_sigma S K T r hS hK hT h1 h2 h12
  have p1 := put_call_parity S K T r s1
  have p2 := put_call_parity S K T r s2
  exact ⟨hc, by simp only at hc; linarith⟩

/-- Witness for C7 at S=100, K=100, T=1, r=1/20, sigma 1/5 < 3/10. -/
theorem C7_witness :
    black_scholes_call 100 100 1 (1 / 20) (1 / 5) <
      black_scholes_call 100 100 1 (1 / 20) (3 / 10) ∧
    black_scholes_put 100 100 1 (1 / 20) (1 / 5) <
      black_scholes_put 100 100 1 (1 / 20) (3 / 10) :=
  C7_strict_mono_in_sigma 100 100 1 (1 / 20) (1 / 5) (3 / 10)
    (by norm_num) (by norm_num) (by norm_num) (by norm_num) (by norm_num)

/-- C8: gamma is `φ(d1)/(S·σ·√T)` and non-negative, vega is `S·φ(d1)·√T`
and non-negative.  Both functions take no option-type discriminator in the
source, so the value computed on the call path and on the put path is the
same function application, which makes the type-independence half of the
claim immediate. -/
theorem C8_gamma_vega_formulas_and_bounds (S K T r sigma : ℝ)
    (hS : 0 < S) (hK : 0 < K) (hT : 0 < T) (hsig : 0 < sigma) :
    gamma S K T r sigma =
      norm_pdf (calculate_d1_d2 S K T r sigma).1 / (S * sigma * Real.sqrt T) ∧
    0 ≤ gamma S K T r sigma ∧
    vega S K T r sigma =
      S * norm_pdf (calculate_d1_d2 S K T r sigma).1 * Real.sqrt T ∧
    0 ≤ vega S K T r sigma :=
  ⟨rfl, gamma_nonneg S K T r sigma hS hT hsig, rfl,
    (vega_pos S K T r sigma hS hT).le⟩

/-- Witness for C8 at S=100, K=100, T=1, r=1/20, sigma=1/5. -/
theorem C8_witness :
    gamma 100 100 1 (1 / 20) (1 / 5) =
      norm_pdf (calculate_d1_d2 100 100 1 (1 / 20) (1 / 5)).1 /
        (100 * (1 / 5) * Real.sqrt 1) ∧
    0 ≤ gamma 100 100 1 (1 / 20) (1 / 5) ∧
    vega 100 100 1 (1 / 20) (1 / 5) =
      100 * norm_pdf (calculate_d1_d2 100 100 1 (1 / 20) (1 / 5)).1 *
        Real.sqrt 1 ∧
    0 ≤ vega 100 100 1 (1 / 20) (1 / 5) :=
  C8_gamma_vega_formulas_and_bounds 100 100 1 (1 / 20) (1 / 5)
    (by norm_num) (by norm_num) (by norm_num) (by norm_num)

/-- C9: theta of a call is `−S·φ(d1)·σ/(2·√T) − r·K·e^(−rT)·Φ(d2)` and
theta of a put is `−S·φ(d1)·σ/(2·√T) + r·K·e^(−rT)·Φ(−d2)`, per unit of
`T` in years (the code applies no per-day rescaling). -/
theorem C9_theta_formulas (S K T r sigma : ℝ)
    (hS : 0 < S) (hK : 0 < K) (hT : 0 < T) (hsig : 0 < sigma) :
    theta S K T r sigma "call" =
      some (-S * norm_pdf (calculate_d1_d2 S K T r sigma).1 * sigma /
          (2 * Real.sqrt T) -
        r * K * Real.exp (-r * T) *
          norm_cdf (calculate_d1_d2 S K T r sigma).2) ∧
    theta S K T r sigma "put" =
      some (-S * norm_pdf (calculate_d1_d2 S K T r sigma).1 * sigma /
          (2 * Real.sqrt T) +
        r * K * Real.exp (-r * T) *
          norm_cdf (-(calculate_d1_d2 S K T r sigma).2)) :=
  ⟨rfl, rfl⟩

/-- Witness for C9 at S=100, K=100, T=1, r=1/20, sigma=1/5. -/
theorem C9_witness :
    theta 100 100 1 (1 / 20) (1 / 5) "call" =
      some (-100 * norm_pdf (calculate_d1_d2 100 100 1 (1 / 20) (1 / 5)).1 *
          (1 / 5) / (2 * Real.sqrt 1) -
        1 / 20 * 100 * Real.exp (-(1 / 20) * 1) *
          norm_cdf (calculate_d1_d2 100 100 1 (1 / 20) (1 / 5)).2) ∧
    theta 100 100 1 (1 / 20) (1 / 5) "put" =
      some (-100 * norm_pdf (calculate_d1_d2 100 100 1 (1 / 20) (1 / 5)).1 *
          (1 / 5) / (2 * Real.sqrt 1) +
        1 / 20 * 100 * Real.exp (-(1 / 20) * 1) *
          norm_cdf (-(calculate_d1_d2 100 100 1 (1 / 20) (1 / 5)).2)) :=
  C9_theta_formulas 100 100 1 (1 / 20) (1 / 5)
    (by norm_num) (by norm_num) (by norm_num) (by norm_num)

/-- C10: calling `delta`, `theta` or `rho` without an option-type argument
uses the declared Python default `'call'`, so the result is the call-path
result for the same five inputs. -/
theorem C10_default_is_call (S K T r sigma : ℝ)
    (hS : 0 < S) (hK : 0 < K) (hT : 0 < T) (hsig : 0 < sigma) :
    default_option_type = "call" ∧
    delta_default S K T r sigma = delta S K T r sigma "call" ∧
    theta_default S K T r sigma = theta S K T r sigma "call" ∧
    rho_default S K T r sigma = rho S K T r sigma "call" ∧
    delta_default S K T r sigma =
      some (norm_cdf (calculate_d1_d2 S K T r sigma).1) :=
  ⟨rfl, rfl, rfl, rfl, rfl⟩

/-- Witness for C10 at S=100, K=100, T=1, r=1/20, sigma=1/5. -/
theorem C10_witness :
    default_option_type = "call" ∧
    delta_default 100 100 1 (1 / 20) (1 / 5) =
      delta 100 100 1 (1 / 20) (1 / 5) "call" ∧
    theta_default 100 100 1 (1 / 20) (1 / 5) =
      theta 100 100 1 (1 / 20) (1 / 5) "call" ∧
    rho_default 100 100 1 (1 / 20) (1 / 5) =
      rho 100 100 1 (1 / 20) (1 / 5) "call" ∧
    delta_default 100 100 1 (1 / 20) (1 / 5) =
      some (norm_cdf (calculate_d1_d2 100 100 1 (1 / 20) (1 / 5)).1) :=
  C10_default_is_call 100 100 1 (1 / 20) (1 / 5)
    (by norm_num) (by norm_num) (by norm_num) (by norm_num)

end BlackScholes
